import Mathlib

/-!
Shallow embedding of the `fastrep` work-log tracker (Python), covering the
parts of `fastrep/report_generator.py`, `fastrep/database.py` and the report
route of `fastrep/app.py` that the verified properties below are about.

Conventions of the embedding:
* Python `datetime` values are modelled by `DateTime`, a record of six `Nat`
  components (year, month, day, hour, minute, second).  Python compares
  `datetime` values lexicographically by component, which `DateTime.Le`
  mirrors.  Sub-second precision is dropped: none of the modelled code paths
  distinguishes microseconds (`strftime('%Y-%m-%d %H:%M:%S')` truncates them).
* `datetime - timedelta(days = n)` is modelled by `DateTime.subDays`, going
  through the standard civil-calendar day-number conversion
  (`Date3.toDays` / `Date3.ofDays`).
* External subprocess calls (the `cline` CLI) are modelled by explicit oracle
  parameters describing the outcome of each call; the functions under
  verification are otherwise pure.
* The SQLite tables of `database.py` are modelled by in-memory lists.  The
  stored `date` column holds the `'%Y-%m-%d'`-formatted activity date, i.e.
  only the calendar-day part, modelled as a `Date3`; SQL string comparison of
  zero-padded `'YYYY-MM-DD'` strings coincides with lexicographic comparison
  of the (year, month, day) components, which `Date3.Le` mirrors.
-/

/-- A Python `datetime` value, truncated to second precision. -/
structure DateTime where
  year : Nat
  month : Nat
  day : Nat
  hour : Nat
  minute : Nat
  second : Nat
deriving DecidableEq, Repr

/-- A calendar day, as stored by `strftime('%Y-%m-%d')`. -/
structure Date3 where
  year : Nat
  month : Nat
  day : Nat
deriving DecidableEq, Repr

/-- Lexicographic order on `datetime` components — Python's `datetime` order,
used by `list.sort(key=lambda x: x.date, ...)`. -/
def DateTime.Le (a b : DateTime) : Prop :=
  a.year < b.year ∨ (a.year = b.year ∧
    (a.month < b.month ∨ (a.month = b.month ∧
      (a.day < b.day ∨ (a.day = b.day ∧
        (a.hour < b.hour ∨ (a.hour = b.hour ∧
          (a.minute < b.minute ∨ (a.minute = b.minute ∧
            a.second ≤ b.second)))))))))

instance (a b : DateTime) : Decidable (DateTime.Le a b) := by
  unfold DateTime.Le; infer_instance

/-- Lexicographic order on stored `'YYYY-MM-DD'` date strings, which for
zero-padded four-digit years is exactly component-wise lexicographic order. -/
def Date3.Le (a b : Date3) : Prop :=
  a.year < b.year ∨ (a.year = b.year ∧
    (a.month < b.month ∨ (a.month = b.month ∧ a.day ≤ b.day)))

instance (a b : Date3) : Decidable (Date3.Le a b) := by
  unfold Date3.Le; infer_instance

/-- `strftime('%Y-%m-%d')`: keep only the calendar-day part. -/
def DateTime.toDate3 (d : DateTime) : Date3 :=
  ⟨d.year, d.month, d.day⟩

/-- `strptime(s, '%Y-%m-%d')`: a date-only string parses to midnight. -/
def Date3.toMidnight (d : Date3) : DateTime :=
  ⟨d.year, d.month, d.day, 0, 0, 0⟩

/-- `replace(hour=0, minute=0, second=0, microsecond=0)`. -/
def DateTime.truncMidnight (d : DateTime) : DateTime :=
  ⟨d.year, d.month, d.day, 0, 0, 0⟩

/-- Day number of a civil (proleptic Gregorian) date, for years ≥ 1: days
since 0000-03-01.  Standard civil-from-days algorithm, used to model
`timedelta` day arithmetic on `datetime` values. -/
def Date3.toDays (d : Date3) : Nat :=
  let y := if d.month ≤ 2 then d.year - 1 else d.year
  let era := y / 400
  let yoe := y % 400
  let mp := if d.month ≤ 2 then d.month + 9 else d.month - 3
  let doy := (153 * mp + 2) / 5 + (d.day - 1)
  let doe := yoe * 365 + yoe / 4 - yoe / 100 + doy
  era * 146097 + doe

/-- Inverse of `Date3.toDays` on valid civil dates. -/
def Date3.ofDays (z : Nat) : Date3 :=
  let era := z / 146097
  let doe := z % 146097
  let yoe := (doe - doe / 1460 + doe / 36524 - doe / 146096) / 365
  let y := yoe + era * 400
  let doy := doe - (365 * yoe + yoe / 4 - yoe / 100)
  let mp := (5 * doy + 2) / 153
  let d := doy - (153 * mp + 2) / 5 + 1
  let m := if mp < 10 then mp + 3 else mp - 9
  ⟨if m ≤ 2 then y + 1 else y, m, d⟩

/-- `dt - timedelta(days = n)`, time-of-day components preserved. -/
def DateTime.subDays (dt : DateTime) (n : Nat) : DateTime :=
  let d := Date3.ofDays (dt.toDate3.toDays - n)
  ⟨d.year, d.month, d.day, dt.hour, dt.minute, dt.second⟩

/-- The three report modes accepted by `ReportGenerator.get_date_range`
(any other mode string raises `ValueError` and is outside this embedding). -/
inductive Mode where
  | weekly
  | biweekly
  | monthly
deriving DecidableEq, Repr

/-- `ReportGenerator.get_date_range`, with the ambient `datetime.now()` made
an explicit `today` parameter. -/
def get_date_range (mode : Mode) (now : DateTime) : DateTime × DateTime :=
  let today := now.truncMidnight
  match mode with
  | .weekly => (today.subDays 6, today)
  | .biweekly => (today.subDays 13, today)
  | .monthly => (today.subDays 30, today)

example : get_date_range .weekly ⟨2024, 3, 15, 11, 22, 33⟩ =
    (⟨2024, 3, 9, 0, 0, 0⟩, ⟨2024, 3, 15, 0, 0, 0⟩) := by decide

example : get_date_range .monthly ⟨2024, 3, 15, 0, 0, 0⟩ =
    (⟨2024, 2, 14, 0, 0, 0⟩, ⟨2024, 3, 15, 0, 0, 0⟩) := by decide

/-- Zero-padded two-digit field (`%m`, `%d`, `%H`, `%M`, `%S`). -/
def pad2 (n : Nat) : String :=
  if n < 10 then "0" ++ toString n else toString n

/-- Zero-padded four-digit year (`%Y`). -/
def pad4 (n : Nat) : String :=
  if n < 10 then "000" ++ toString n
  else if n < 100 then "00" ++ toString n
  else if n < 1000 then "0" ++ toString n
  else toString n

/-- `strftime('%m/%d')`. -/
def fmtMMDD (d : DateTime) : String :=
  pad2 d.month ++ "/" ++ pad2 d.day

/-- `strftime('%Y-%m-%d')`. -/
def fmtYMD (d : DateTime) : String :=
  pad4 d.year ++ "-" ++ pad2 d.month ++ "-" ++ pad2 d.day

/-- `%b`: abbreviated month name. -/
def monthAbbr (m : Nat) : String :=
  match m with
  | 1 => "Jan" | 2 => "Feb" | 3 => "Mar" | 4 => "Apr" | 5 => "May" | 6 => "Jun"
  | 7 => "Jul" | 8 => "Aug" | 9 => "Sep" | 10 => "Oct" | 11 => "Nov" | 12 => "Dec"
  | _ => ""

/-- `%B`: full month name. -/
def monthFull (m : Nat) : String :=
  match m with
  | 1 => "January" | 2 => "February" | 3 => "March" | 4 => "April"
  | 5 => "May" | 6 => "June" | 7 => "July" | 8 => "August"
  | 9 => "September" | 10 => "October" | 11 => "November" | 12 => "December"
  | _ => ""

/-- `%A`: full weekday name; day number 0 (civil epoch 0000-03-01) was a
Wednesday. -/
def weekdayName (d : DateTime) : String :=
  match d.toDate3.toDays % 7 with
  | 0 => "Wednesday" | 1 => "Thursday" | 2 => "Friday" | 3 => "Saturday"
  | 4 => "Sunday" | 5 => "Monday" | _ => "Tuesday"

/-- `strftime('%b %d')`. -/
def fmtMonAbbrDD (d : DateTime) : String :=
  monthAbbr d.month ++ " " ++ pad2 d.day

/-- `strftime('%A, %B %d')`. -/
def fmtWeekdayFullDD (d : DateTime) : String :=
  weekdayName d ++ ", " ++ monthFull d.month ++ " " ++ pad2 d.day

example : fmtWeekdayFullDD ⟨2024, 3, 15, 0, 0, 0⟩ = "Friday, March 15" := by decide
example : fmtMonAbbrDD ⟨2024, 3, 9, 0, 0, 0⟩ = "Mar 09" := by decide

/-- Modelled from the spec: the `LogEntry` record of `fastrep/models.py`
(absent from the sources; only its callers are present).  Per spec §3, a
`LogEntry` has an optional store-assigned identifier, a project name, a
required description, an activity date, and a creation timestamp used for
tie-breaking. -/
structure LogEntry where
  id : Option Nat
  project : String
  description : String
  date : DateTime
  created_at : DateTime
deriving DecidableEq, Repr

/-- One entry of `ReportGenerator.TEMPLATES`: the `date_format` pattern and
the `text_item` / `html_item` line templates are embedded as the functions
they denote (brace substitution applied to the literal pattern). -/
structure Template where
  displayName : String
  blurb : String
  dateFormat : DateTime → String
  showHeader : Bool
  htmlItem : String → String → String
  textItem : String → String → String

def classicTemplate : Template :=
  { displayName := "Classic"
    blurb := "Standard format with date range header."
    dateFormat := fmtMMDD
    showHeader := true
    htmlItem := fun date descr => "<li><strong>" ++ date ++ "</strong> - " ++ descr ++ "</li>"
    textItem := fun date descr => "  * " ++ date ++ " - " ++ descr }

def classicCleanTemplate : Template :=
  { displayName := "Classic (No Header)"
    blurb := "Standard format without date range header."
    dateFormat := fmtMMDD
    showHeader := false
    htmlItem := fun date descr => "<li><strong>" ++ date ++ "</strong> - " ++ descr ++ "</li>"
    textItem := fun date descr => "  * " ++ date ++ " - " ++ descr }

def boldTemplate : Template :=
  { displayName := "Bold Dates"
    blurb := "Dates bolded at start."
    dateFormat := fmtYMD
    showHeader := true
    htmlItem := fun date descr =>
      "<li><b style=\"color:var(--primary-color)\">" ++ date ++ "</b>: " ++ descr ++ "</li>"
    textItem := fun date descr => "  * **" ++ date ++ "**: " ++ descr }

def modernTemplate : Template :=
  { displayName := "Modern"
    blurb := "Description first, italic date at end."
    dateFormat := fmtMonAbbrDD
    showHeader := true
    htmlItem := fun date descr =>
      "<li>" ++ descr ++ " <em style=\"color:var(--text-secondary)\">(" ++ date ++ ")</em></li>"
    textItem := fun date descr => "  * " ++ descr ++ " (" ++ date ++ ")" }

def professionalTemplate : Template :=
  { displayName := "Professional"
    blurb := "Detailed date badges."
    dateFormat := fmtWeekdayFullDD
    showHeader := true
    htmlItem := fun date descr =>
      "<li><span class=\"badge\" style=\"background:#64748b\">" ++ date ++ "</span> " ++ descr ++ "</li>"
    textItem := fun date descr => "  * [" ++ date ++ "] " ++ descr }

def professionalCleanTemplate : Template :=
  { displayName := "Professional (No Header)"
    blurb := "Detailed badges without range header."
    dateFormat := fmtWeekdayFullDD
    showHeader := false
    htmlItem := fun date descr =>
      "<li><span class=\"badge\" style=\"background:#64748b\">" ++ date ++ "</span> " ++ descr ++ "</li>"
    textItem := fun date descr => "  * [" ++ date ++ "] " ++ descr }

def compactTemplate : Template :=
  { displayName := "Compact"
    blurb := "Minimalist layout."
    dateFormat := fmtMMDD
    showHeader := false
    htmlItem := fun date descr =>
      "<li><small style=\"color:var(--text-secondary)\">" ++ date ++ "</small> " ++ descr ++ "</li>"
    textItem := fun date descr => "  - " ++ date ++ " " ++ descr }

/-- `ReportGenerator.TEMPLATES` as an association list (key order as in the
source dict). -/
def TEMPLATES : List (String × Template) :=
  [("classic", classicTemplate),
   ("classic_clean", classicCleanTemplate),
   ("bold", boldTemplate),
   ("modern", modernTemplate),
   ("professional", professionalTemplate),
   ("professional_clean", professionalCleanTemplate),
   ("compact", compactTemplate)]

/-- `TEMPLATES.get(template_name, TEMPLATES['classic'])`. -/
def getTemplate (templateName : String) : Template :=
  (TEMPLATES.lookup templateName).getD classicTemplate

/-- Code-point lexicographic `<=` on character lists — Python's string
comparison, used by `sorted(...)` over project names. -/
def charListLe : List Char → List Char → Bool
  | [], _ => true
  | _ :: _, [] => false
  | a :: as, b :: bs =>
    if a.toNat < b.toNat then true
    else if b.toNat < a.toNat then false
    else charListLe as bs

/-- Python string `<=` (code-point lexicographic), as a decidable relation. -/
def strLexLe (a b : String) : Prop := charListLe a.data b.data = true

instance : DecidableRel strLexLe := by
  unfold strLexLe; infer_instance

theorem charListLe_total : ∀ as bs, charListLe as bs || charListLe bs as
  | [], bs => by simp [charListLe]
  | a :: as, [] => by simp [charListLe]
  | a :: as, b :: bs => by
    simp only [charListLe, Bool.or_eq_true]
    split_ifs <;> simp_all
    have := charListLe_total as bs
    simp only [Bool.or_eq_true] at this
    exact this

theorem charListLe_trans : ∀ as bs cs, charListLe as bs → charListLe bs cs → charListLe as cs
  | [], bs, cs => by simp [charListLe]
  | a :: as, [], cs => by simp [charListLe]
  | a :: as, b :: bs, [] => by simp [charListLe]
  | a :: as, b :: bs, c :: cs => by
    simp only [charListLe]
    split_ifs <;> simp_all <;> try omega
    exact charListLe_trans as bs cs

instance : IsTotal String strLexLe :=
  ⟨fun a b => by
    have := charListLe_total a.data b.data
    simp only [Bool.or_eq_true] at this
    exact this⟩

instance : IsTrans String strLexLe :=
  ⟨fun a b c h1 h2 => charListLe_trans a.data b.data c.data h1 h2⟩

/-- Comparison used by `grouped[project].sort(key=lambda x: x.date,
reverse=True)`: `a` may precede `b` iff `b.date <= a.date`.  Python's sort is
stable; `List.insertionSort` is a stable sort with the same semantics. -/
def byDateDesc (a b : LogEntry) : Prop := DateTime.Le b.date a.date

instance : DecidableRel byDateDesc := by
  unfold byDateDesc; infer_instance

instance : IsTotal LogEntry byDateDesc :=
  ⟨fun a b => by unfold byDateDesc DateTime.Le; omega⟩

instance : IsTrans LogEntry byDateDesc :=
  ⟨fun a b c h1 h2 => by unfold byDateDesc DateTime.Le at *; omega⟩

/-- The distinct project names, in first-occurrence order — the keys of the
`defaultdict` built by `ReportGenerator.group_by_project`. -/
def projectKeys (logs : List LogEntry) : List String :=
  (logs.map (·.project)).dedup

/-- The value `group_by_project(logs)[p]`: the entries of project `p` in
input order, then stably sorted by activity date descending. -/
def projectGroup (logs : List LogEntry) (p : String) : List LogEntry :=
  (logs.filter (fun l => l.project == p)).insertionSort byDateDesc

/-- `sorted(grouped.keys())`: ascending lexicographic order of project
names. -/
def sortedProjectKeys (logs : List LogEntry) : List String :=
  (projectKeys logs).insertionSort strLexLe

/-- `"=" * 60`. -/
def eqLine60 : String := String.mk (List.replicate 60 '=')

/-- `"-" * 60`. -/
def dashLine60 : String := String.mk (List.replicate 60 '-')

/-- The period-header lines appended by `format_report` whenever a mode is
given (the source never consults the template's `show_header` flag). -/
def textHeaderLines (mode : Option Mode) (now : DateTime) : List String :=
  match mode with
  | some m =>
    let r := get_date_range m now
    ["Report Period: " ++ fmtMMDD r.1 ++ " - " ++ fmtMMDD r.2, eqLine60, ""]
  | none => []

/-- The lines one iteration of the project loop of `format_report` appends
for project `p`. -/
def textProjectBlock (logs : List LogEntry)
    (summaries : List (String × List String)) (template : Template)
    (p : String) : List String :=
  ("Project: " ++ p) :: dashLine60 ::
    ((match summaries.lookup p with
      | some slines => "(AI Summary)" :: slines.map (fun l => "  " ++ l)
      | none => (projectGroup logs p).map
          (fun l => template.textItem (template.dateFormat l.date) l.description)) ++
     [""])

/-- The `report_lines` list built by `ReportGenerator.format_report` for a
non-empty `logs` list: the header block, then one block per project in
ascending name order. -/
def format_report_lines (logs : List LogEntry) (mode : Option Mode)
    (now : DateTime) (summaries : List (String × List String))
    (templateName : String) : List String :=
  let template := getTemplate templateName
  textHeaderLines mode now ++ (sortedProjectKeys logs).foldl (fun acc p =>
    acc ++ textProjectBlock logs summaries template p) []

/-- `ReportGenerator.format_report`, with `datetime.now()` and the outcome of
the `improve_report_text` external call (`cline` subprocess) made explicit
parameters.  `improve final = some t` models a successful call whose output
file had non-empty stripped content `t`; `none` models every failure path of
`improve_report_text`, which returns the input text unchanged. -/
def format_report (logs : List LogEntry) (mode : Option Mode) (now : DateTime)
    (summaries : List (String × List String))
    (improve : String → Option String) (templateName : String) : String :=
  if logs.isEmpty then "No logs found for this period."
  else
    let finalText :=
      "\n".intercalate (format_report_lines logs mode now summaries templateName)
    if summaries.isEmpty then finalText
    else match improve finalText with
      | some t => t
      | none => finalText

/-- `line.lstrip('-*• ')` applied to AI summary lines in the HTML renderer. -/
def lstripSummary (s : String) : String :=
  String.mk (s.data.dropWhile (fun c => c == '-' || c == '*' || c == '•' || c == ' '))

/-- The header paragraph appended by `format_report_html` whenever a mode is
given. -/
def htmlHeaderParts (mode : Option Mode) (now : DateTime) : List String :=
  match mode with
  | some m =>
    let r := get_date_range m now
    ["<p><strong>Report Period:</strong> " ++ fmtMMDD r.1 ++ " - " ++ fmtMMDD r.2 ++ "</p>"]
  | none => []

/-- The parts one iteration of the project loop of `format_report_html`
appends for project `p`. -/
def htmlProjectBlock (logs : List LogEntry)
    (summaries : List (String × List String)) (template : Template)
    (p : String) : List String :=
  ("<h4>" ++ p ++ "</h4>") ::
    (match summaries.lookup p with
     | some slines =>
       "<p><em>(AI Summary)</em></p>" :: "<ul>" ::
         (slines.map (fun l => "<li>" ++ lstripSummary l ++ "</li>") ++ ["</ul>"])
     | none =>
       "<ul>" ::
         ((projectGroup logs p).map
           (fun l => template.htmlItem (template.dateFormat l.date) l.description) ++
          ["</ul>"]))

/-- The `html_parts` list built by `ReportGenerator.format_report_html` for a
non-empty `logs` list (joined with `""`). -/
def format_report_html_parts (logs : List LogEntry) (mode : Option Mode)
    (now : DateTime) (summaries : List (String × List String))
    (templateName : String) : List String :=
  let template := getTemplate templateName
  htmlHeaderParts mode now ++ (sortedProjectKeys logs).foldl (fun acc p =>
    acc ++ htmlProjectBlock logs summaries template p) []

/-- `ReportGenerator.format_report_html`. -/
def format_report_html (logs : List LogEntry) (mode : Option Mode)
    (now : DateTime) (summaries : List (String × List String))
    (templateName : String) : String :=
  if logs.isEmpty then "<p>No logs found for this period.</p>"
  else String.join (format_report_html_parts logs mode now summaries templateName)

/-- Strict lexicographic order on stored dates. -/
def Date3.Lt (a b : Date3) : Prop :=
  a.year < b.year ∨ (a.year = b.year ∧
    (a.month < b.month ∨ (a.month = b.month ∧ a.day < b.day)))

instance (a b : Date3) : Decidable (Date3.Lt a b) := by
  unfold Date3.Lt; infer_instance

/-- A row of the `logs` table: the `date` column holds the
`'%Y-%m-%d'`-formatted activity date, the `created_at` column the
`'%Y-%m-%d %H:%M:%S'`-formatted creation timestamp. -/
structure Row where
  rid : Nat
  project : String
  description : String
  date : Date3
  created : DateTime
deriving DecidableEq, Repr

/-- The SQLite database state: `logs` rows, the `settings` table, and the
`AUTOINCREMENT` counter for the `id` primary key. -/
structure DB where
  rows : List Row
  settings : List (String × String)
  nextId : Nat
deriving DecidableEq, Repr

def DB.empty : DB := ⟨[], [], 1⟩

/-- `Database.add_log`: insert a row (activity date truncated to the day by
`strftime('%Y-%m-%d')`) and return the assigned row id. -/
def add_log (db : DB) (e : LogEntry) : DB × Nat :=
  let rid := db.nextId
  ({ db with
      rows := db.rows ++ [⟨rid, e.project, e.description, e.date.toDate3, e.created_at⟩]
      nextId := rid + 1 },
   rid)

/-- `ORDER BY date DESC, created_at DESC` on stored rows: `a` may precede `b`
iff `a`'s key is at least `b`'s. -/
def rowOrderDesc (a b : Row) : Prop :=
  Date3.Lt b.date a.date ∨
    (b.date.year = a.date.year ∧ b.date.month = a.date.month ∧
     b.date.day = a.date.day ∧ DateTime.Le b.created a.created)

instance : DecidableRel rowOrderDesc := by
  unfold rowOrderDesc; infer_instance

instance : IsTotal Row rowOrderDesc :=
  ⟨fun a b => by unfold rowOrderDesc Date3.Lt DateTime.Le; omega⟩

instance : IsTrans Row rowOrderDesc :=
  ⟨fun a b c h1 h2 => by unfold rowOrderDesc Date3.Lt DateTime.Le at *; omega⟩

/-- Reconstruction of a `LogEntry` from a fetched row:
`strptime(date, '%Y-%m-%d')` yields the stored day at midnight. -/
def rowToEntry (r : Row) : LogEntry :=
  ⟨some r.rid, r.project, r.description, r.date.toMidnight, r.created⟩

/-- `Database.get_logs`: filter by the optional bounds (each bound is passed
as its `'%Y-%m-%d'` string, so only its day part matters), order by
`date DESC, created_at DESC`, and parse the rows back into entries. -/
def get_logs (db : DB) (startB endB : Option DateTime) : List LogEntry :=
  let keep := fun (r : Row) =>
    (match startB with
     | none => true
     | some sd => decide (Date3.Le sd.toDate3 r.date)) &&
    (match endB with
     | none => true
     | some ed => decide (Date3.Le r.date ed.toDate3))
  ((db.rows.filter keep).insertionSort rowOrderDesc).map rowToEntry

/-- `Database.clear_all`: `DELETE FROM logs`. -/
def clear_all (db : DB) : DB :=
  { db with rows := [] }

/-- `Database.get_setting`. -/
def get_setting (db : DB) (key : String) (dflt : Option String) : Option String :=
  match db.settings.lookup key with
  | some v => some v
  | none => dflt

/-- `Database.set_setting`: `INSERT OR REPLACE`. -/
def set_setting (db : DB) (key value : String) : DB :=
  { db with settings := (key, value) :: db.settings.filter (fun kv => kv.1 ≠ key) }

/-- Outcome of one `cline` subprocess invocation inside
`summarize_project_logs`: `ok content` models a call that completed and left
`content` in the exchange file; `timeout` models `subprocess.TimeoutExpired`;
`err` models every other exception (non-zero exit, missing output file, ...). -/
inductive ClineOutcome where
  | ok (content : String)
  | timeout
  | err
deriving DecidableEq, Repr

/-- Python `str.strip()`. -/
def stripStr (s : String) : String :=
  String.mk (((s.data.dropWhile (·.isWhitespace)).reverse.dropWhile (·.isWhitespace)).reverse)

/-- Python `str.split('\n')`. -/
def splitLines (s : String) : List String :=
  (s.data.splitOn '\n').map String.mk

/-- The fallback path of `summarize_project_logs`: up to 10 recent logs,
formatted `'%m/%d - description'`, plus an overflow line. -/
def fallbackLines (logs : List LogEntry) : List String :=
  let recent := logs.take 10
  let formatted := recent.map (fun l => fmtMMDD l.date ++ " - " ++ l.description)
  if 10 < logs.length then
    formatted ++ ["... and " ++ toString (logs.length - 10) ++ " more entries."]
  else formatted

/-- `ReportGenerator.summarize_project_logs`, with the subprocess outcome an
explicit parameter.  On a non-empty stripped summary the lines are returned;
on an empty summary, a timeout, or any exception the function falls back to
the recent-log lines (it never re-raises). -/
def summarize_project_logs (logs : List LogEntry) (outcome : ClineOutcome) :
    List String :=
  match outcome with
  | .ok content =>
    let s := stripStr content
    if s = "" then fallbackLines logs else splitLines s
  | .timeout => fallbackLines logs
  | .err => fallbackLines logs

/-- `ReportGenerator.generate_summaries`, with one oracle value per project
naming the outcome of that project's `cline` call.  Returns the summaries
mapping together with the number of external calls issued. -/
def generate_summaries (logs : List LogEntry) (mode : Mode) (summarize : Bool)
    (oracle : String → ClineOutcome) : List (String × List String) × Nat :=
  if summarize = false ∨ mode ≠ Mode.monthly then ([], 0)
  else
    (projectKeys logs).foldl (fun acc p =>
      let g := projectGroup logs p
      if 5 < g.length then
        (acc.1 ++ [(p, summarize_project_logs g (oracle p))], acc.2 + 1)
      else acc) ([], 0)

/-- The summarization gate of the `/report/<mode>` route in `app.py`:
`summarize` stays `False` unless the mode is `monthly`, the `cline` CLI is on
the path, and the `ai_summary_enabled` setting reads `'true'`. -/
def appSummarizeFlag (clineAvail : Bool) (db : DB) (mode : Mode) : Bool :=
  if mode = Mode.monthly then
    clineAvail && ((get_setting db "ai_summary_enabled" none) == some "true")
  else false

/-- A sample entry used for concrete evaluations. -/
def showcaseEntry : LogEntry :=
  ⟨some 1, "Alpha", "did a thing", ⟨2024, 3, 15, 0, 0, 0⟩, ⟨2024, 3, 15, 9, 0, 0⟩⟩

/-- Six one-day entries for one project, used as concrete inputs. -/
def entryPD (p : String) (d : Nat) : LogEntry :=
  ⟨none, p, "worked", ⟨2024, 3, d, 0, 0, 0⟩, ⟨2024, 3, d, 8, 0, 0⟩⟩

def sixLogs (p : String) : List LogEntry :=
  [entryPD p 10, entryPD p 11, entryPD p 12, entryPD p 13, entryPD p 14, entryPD p 15]

/-- Strict lexicographic order on `datetime` values. -/
def DateTime.Lt (a b : DateTime) : Prop :=
  a.year < b.year ∨ (a.year = b.year ∧
    (a.month < b.month ∨ (a.month = b.month ∧
      (a.day < b.day ∨ (a.day = b.day ∧
        (a.hour < b.hour ∨ (a.hour = b.hour ∧
          (a.minute < b.minute ∨ (a.minute = b.minute ∧
            a.second < b.second)))))))))

instance (a b : DateTime) : Decidable (DateTime.Lt a b) := by
  unfold DateTime.Lt; infer_instance

/-- The ordering the specification asserts for the lines of one project
group: strictly descending activity date, ties broken by descending creation
timestamp. -/
def byDateCreatedDesc (a b : LogEntry) : Prop :=
  DateTime.Lt b.date a.date ∨
    (a.date.year = b.date.year ∧ a.date.month = b.date.month ∧
     a.date.day = b.date.day ∧ a.date.hour = b.date.hour ∧
     a.date.minute = b.date.minute ∧ a.date.second = b.date.second ∧
     DateTime.Le b.created_at a.created_at)

instance (a b : LogEntry) : Decidable (byDateCreatedDesc a b) := by
  unfold byDateCreatedDesc; infer_instance

/-- Two same-day entries of one project whose creation order matches their
input order — exercising the tie-break behaviour of `group_by_project`. -/
def tieEarlier : LogEntry :=
  ⟨some 1, "P", "first created", ⟨2024, 3, 15, 0, 0, 0⟩, ⟨2024, 3, 15, 9, 0, 0⟩⟩

def tieLater : LogEntry :=
  ⟨some 2, "P", "second created", ⟨2024, 3, 15, 0, 0, 0⟩, ⟨2024, 3, 15, 10, 0, 0⟩⟩

/-! ## Verified properties -/

/-- C1: for every mode, `get_date_range` returns the inclusive rolling window
`[today - 6 days, today]` / `[today - 13 days, today]` / `[today - 30 days,
today]` anchored to the current date truncated to midnight; in particular
`weekly` with today fixed at 2024-03-15 yields [2024-03-09, 2024-03-15], and
`monthly` at the same date crosses the leap February back to 2024-02-14. -/
theorem get_date_range_rolling_window (now : DateTime) :
    get_date_range .weekly now = (now.truncMidnight.subDays 6, now.truncMidnight)
  ∧ get_date_range .biweekly now = (now.truncMidnight.subDays 13, now.truncMidnight)
  ∧ get_date_range .monthly now = (now.truncMidnight.subDays 30, now.truncMidnight)
  ∧ get_date_range .weekly ⟨2024, 3, 15, 11, 22, 33⟩ =
      (⟨2024, 3, 9, 0, 0, 0⟩, ⟨2024, 3, 15, 0, 0, 0⟩)
  ∧ get_date_range .monthly ⟨2024, 3, 15, 11, 22, 33⟩ =
      (⟨2024, 2, 14, 0, 0, 0⟩, ⟨2024, 3, 15, 0, 0, 0⟩) :=
  ⟨rfl, rfl, rfl, by decide, by decide⟩

/-- C7: the empty entry list yields the designated non-empty placeholder for
both the text and the HTML report, for every mode, date, summaries mapping,
improvement-call outcome and template. -/
theorem empty_logs_placeholder (mode : Option Mode) (now : DateTime)
    (summaries : List (String × List String)) (improve : String → Option String)
    (templateName : String) :
    format_report [] mode now summaries improve templateName =
      "No logs found for this period."
  ∧ format_report_html [] mode now summaries templateName =
      "<p>No logs found for this period.</p>"
  ∧ format_report [] mode now summaries improve templateName ≠ ""
  ∧ format_report_html [] mode now summaries templateName ≠ "" := by
  have h1 : format_report [] mode now summaries improve templateName =
      "No logs found for this period." := rfl
  have h2 : format_report_html [] mode now summaries templateName =
      "<p>No logs found for this period.</p>" := rfl
  rw [h1, h2]
  refine ⟨rfl, rfl, by decide, by decide⟩

/-- C10: `clear_all` deletes every log row but leaves the settings table
untouched: every setting reads the same before and after, and the log table
reads back empty. -/
theorem clear_all_preserves_settings (db : DB) (key : String)
    (dflt : Option String) :
    get_setting (clear_all db) key dflt = get_setting db key dflt
  ∧ (clear_all db).rows = []
  ∧ get_logs (clear_all db) none none = [] :=
  ⟨rfl, rfl, rfl⟩

/-- C9: with no enrichment (an empty summaries mapping), the assembled text
report does not depend on the external improvement call at all, and hence two
calls on identical inputs produce byte-identical text and HTML output. -/
theorem assemble_deterministic_without_enrichment (logs : List LogEntry)
    (mode : Option Mode) (now : DateTime) (templateName : String)
    (improve1 improve2 : String → Option String) :
    format_report logs mode now [] improve1 templateName =
      format_report logs mode now [] improve2 templateName
  ∧ format_report_html logs mode now [] templateName =
      format_report_html logs mode now [] templateName := by
  refine ⟨?_, rfl⟩
  unfold format_report
  simp

/-- C4 (failing input): the `classic_clean` template declares
`show_header = False` ("Standard format without date range header"), yet
`format_report` emits the period header whenever a mode is supplied — the
flag is never consulted by `format_report` / `format_report_html`. -/
theorem header_emitted_despite_disabled_flag :
    (getTemplate "classic_clean").showHeader = false
  ∧ format_report_lines [showcaseEntry] (some .weekly) ⟨2024, 3, 15, 10, 0, 0⟩
      [] "classic_clean" =
      ["Report Period: 03/09 - 03/15", eqLine60, "",
       "Project: Alpha", dashLine60, "  * 03/15 - did a thing", ""]
  ∧ (format_report_html_parts [showcaseEntry] (some .weekly)
      ⟨2024, 3, 15, 10, 0, 0⟩ [] "classic_clean").head? =
      some "<p><strong>Report Period:</strong> 03/09 - 03/15</p>" := by
  decide

/-- The per-project entries plus call count produced by the summary fold of
`generate_summaries`, in closed form. -/
theorem generate_summaries_foldl_spec (logs : List LogEntry)
    (oracle : String → ClineOutcome) (keys : List String)
    (acc : List (String × List String) × Nat) :
    keys.foldl (fun acc p =>
      let g := projectGroup logs p
      if 5 < g.length then
        (acc.1 ++ [(p, summarize_project_logs g (oracle p))], acc.2 + 1)
      else acc) acc =
    (acc.1 ++ (keys.filter (fun p => 5 < (projectGroup logs p).length)).map
        (fun p => (p, summarize_project_logs (projectGroup logs p) (oracle p))),
     acc.2 + (keys.filter (fun p => 5 < (projectGroup logs p).length)).length) := by
  induction keys generalizing acc with
  | nil => simp
  | cons k ks ih =>
    simp only [List.foldl_cons, List.filter_cons]
    by_cases hk : 5 < (projectGroup logs k).length
    · simp [hk, ih]
      omega
    · simp [hk, ih]

/-- Closed form of `generate_summaries` when summarization is active. -/
theorem generate_summaries_closed_form (logs : List LogEntry)
    (oracle : String → ClineOutcome) :
    generate_summaries logs .monthly true oracle =
    (((projectKeys logs).filter (fun p => 5 < (projectGroup logs p).length)).map
        (fun p => (p, summarize_project_logs (projectGroup logs p) (oracle p))),
     ((projectKeys logs).filter (fun p => 5 < (projectGroup logs p).length)).length) := by
  unfold generate_summaries
  rw [if_neg (by simp)]
  rw [generate_summaries_foldl_spec]
  simp

/-- C5 amended: `generate_summaries` issues one `cline` call per project
whose group holds more than five entries — not one batched call for all
projects. -/
theorem one_external_call_per_large_project (logs : List LogEntry)
    (oracle : String → ClineOutcome) :
    (generate_summaries logs .monthly true oracle).2 =
      ((projectKeys logs).filter (fun p => 5 < (projectGroup logs p).length)).length := by
  rw [generate_summaries_closed_form]

/-- C5 (counterexample): with two projects of six entries each, the
enrichment step issues two external calls, not a single batched one. -/
theorem single_batched_call_counterexample :
    (generate_summaries (sixLogs "A" ++ sixLogs "B") .monthly true
      (fun _ => .timeout)).2 = 2
  ∧ (2 : Nat) ≠ 1 := by
  decide

/-- C3 amended: a timed-out or otherwise failed `cline` call never escapes
`summarize_project_logs`; instead of an empty mapping, the affected project
receives the fallback lines (up to 10 recent formatted entries plus an
overflow line), which are non-empty whenever the project has entries. -/
theorem enrichment_failure_falls_back (logs : List LogEntry)
    (outcome : ClineOutcome) (oracle : String → ClineOutcome)
    (hout : outcome = .timeout ∨ outcome = .err)
    (horacle : ∀ p, oracle p = .timeout ∨ oracle p = .err) :
    summarize_project_logs logs outcome = fallbackLines logs
  ∧ (generate_summaries logs .monthly true oracle).1 =
      ((projectKeys logs).filter (fun p => 5 < (projectGroup logs p).length)).map
        (fun p => (p, fallbackLines (projectGroup logs p)))
  ∧ (logs ≠ [] → fallbackLines logs ≠ []) := by
  have hsum : ∀ (l : List LogEntry) (o : ClineOutcome),
      o = .timeout ∨ o = .err → summarize_project_logs l o = fallbackLines l := by
    rintro l o (rfl | rfl) <;> rfl
  refine ⟨hsum logs outcome hout, ?_, ?_⟩
  · rw [generate_summaries_closed_form]
    exact List.map_congr_left fun p _ => by rw [hsum _ _ (horacle p)]
  · intro hne
    unfold fallbackLines
    split_ifs with hlen
    · simp
    · simpa using hne

/-- Witness for `enrichment_failure_falls_back` at a concrete timed-out
call on a six-entry project. -/
theorem enrichment_failure_falls_back_witness :
    summarize_project_logs (sixLogs "A") .timeout = fallbackLines (sixLogs "A")
  ∧ (generate_summaries (sixLogs "A") .monthly true (fun _ => .timeout)).1 =
      ((projectKeys (sixLogs "A")).filter
          (fun p => 5 < (projectGroup (sixLogs "A") p).length)).map
        (fun p => (p, fallbackLines (projectGroup (sixLogs "A") p)))
  ∧ fallbackLines (sixLogs "A") ≠ [] := by
  have h := enrichment_failure_falls_back (sixLogs "A") .timeout
    (fun _ => .timeout) (Or.inl rfl) (fun _ => Or.inl rfl)
  exact ⟨h.1, h.2.1, h.2.2 (by decide)⟩

/-- C3 (counterexample): with a six-entry project and a timed-out `cline`
call, `generate_summaries` returns a non-empty mapping, and the assembled
text report differs from the no-enrichment output (the fallback lines are
rendered under an `(AI Summary)` marker). -/
theorem enrichment_failure_empty_mapping_counterexample :
    (generate_summaries (sixLogs "A") .monthly true (fun _ => .timeout)).1 ≠ []
  ∧ format_report (sixLogs "A") none ⟨2024, 3, 15, 0, 0, 0⟩
      ((generate_summaries (sixLogs "A") .monthly true (fun _ => .timeout)).1)
      (fun _ => none) "classic"
    ≠ format_report (sixLogs "A") none ⟨2024, 3, 15, 0, 0, 0⟩ []
      (fun _ => none) "classic" := by
  decide

/-- C6: enrichment is gated by the `ai_summary_enabled` setting and the
monthly mode: with no setting stored the route's `summarize` flag is `False`
and `generate_summaries` returns the empty mapping without issuing any
external call; conversely, if any call was issued then the mode was monthly,
`cline` was available, and the setting read `'true'`. -/
theorem enrichment_gated_by_setting (clineAvail : Bool) (db : DB)
    (mode : Mode) (logs : List LogEntry) (oracle : String → ClineOutcome) :
    (get_setting db "ai_summary_enabled" none = none →
      generate_summaries logs mode (appSummarizeFlag clineAvail db mode) oracle = ([], 0))
  ∧ ((generate_summaries logs mode (appSummarizeFlag clineAvail db mode) oracle).2 ≠ 0 →
      mode = Mode.monthly ∧ clineAvail = true ∧
        get_setting db "ai_summary_enabled" none = some "true") := by
  constructor
  · intro h
    rcases mode with _ | _ | _ <;>
      simp [appSummarizeFlag, generate_summaries, h]
  · intro h
    rcases mode with _ | _ | _
    · exact absurd (by simp [generate_summaries]) h
    · exact absurd (by simp [generate_summaries]) h
    · refine ⟨rfl, ?_, ?_⟩
      all_goals
        rcases hflag : appSummarizeFlag clineAvail db Mode.monthly with _ | _
        · rw [hflag] at h
          exact absurd (by simp [generate_summaries]) h
        · unfold appSummarizeFlag at hflag
          simp at hflag
          first
            | exact hflag.1
            | exact hflag.2

/-- Witness for `enrichment_gated_by_setting`: with an empty settings table
the summaries mapping and call count are zero; with the setting stored as
`'true'`, a monthly report with six entries in one project issues a call,
and the gate facts hold. -/
theorem enrichment_gated_by_setting_witness :
    generate_summaries (sixLogs "A") Mode.monthly
      (appSummarizeFlag true DB.empty Mode.monthly) (fun _ => .timeout) = ([], 0)
  ∧ (Mode.monthly = Mode.monthly ∧ true = true ∧
      get_setting ⟨[], [("ai_summary_enabled", "true")], 1⟩
        "ai_summary_enabled" none = some "true") := by
  constructor
  · exact (enrichment_gated_by_setting true DB.empty Mode.monthly
      (sixLogs "A") (fun _ => .timeout)).1 rfl
  · exact (enrichment_gated_by_setting true ⟨[], [("ai_summary_enabled", "true")], 1⟩
      Mode.monthly (sixLogs "A") (fun _ => .timeout)).2 (by decide)

/-- C8: an entry written by `add_log` and fetched back through `get_logs`
with a range covering its activity date comes back with the same project,
description, and date, the date truncated to day granularity (midnight). -/
theorem add_log_get_logs_roundtrip (db : DB) (e : LogEntry) (sB eB : DateTime)
    (h1 : Date3.Le sB.toDate3 e.date.toDate3)
    (h2 : Date3.Le e.date.toDate3 eB.toDate3) :
    ∃ r ∈ get_logs (add_log db e).1 (some sB) (some eB),
      r.project = e.project ∧ r.description = e.description ∧
      r.date = e.date.toDate3.toMidnight := by
  refine ⟨rowToEntry ⟨db.nextId, e.project, e.description, e.date.toDate3, e.created_at⟩,
    ?_, rfl, rfl, rfl⟩
  unfold get_logs add_log
  simp only [List.mem_map]
  refine ⟨_, ?_, rfl⟩
  rw [List.mem_insertionSort]
  apply List.mem_filter.mpr
  refine ⟨List.mem_append_right _ (List.mem_singleton.mpr rfl), ?_⟩
  simp [h1, h2]

/-- Witness for `add_log_get_logs_roundtrip` on an empty database with the
range pinned to the entry's own day. -/
theorem add_log_get_logs_roundtrip_witness :
    ∃ r ∈ get_logs (add_log DB.empty showcaseEntry).1
        (some ⟨2024, 3, 15, 8, 0, 0⟩) (some ⟨2024, 3, 15, 23, 0, 0⟩),
      r.project = showcaseEntry.project ∧
      r.description = showcaseEntry.description ∧
      r.date = showcaseEntry.date.toDate3.toMidnight :=
  add_log_get_logs_roundtrip DB.empty showcaseEntry
    ⟨2024, 3, 15, 8, 0, 0⟩ ⟨2024, 3, 15, 23, 0, 0⟩ (by decide) (by decide)

/-- Two strings whose first characters differ are different. -/
theorem ne_of_headChar (o₁ o₂ : Option Char) {s t : String}
    (hs : s.data.head? = o₁) (ht : t.data.head? = o₂) (h : o₁ ≠ o₂) : s ≠ t :=
  fun he => h (by rw [← hs, ← ht, he])

/-- Two strings whose second characters differ are different. -/
theorem ne_of_secondChar (o₁ o₂ : Option Char) {s t : String}
    (hs : s.data[1]? = o₁) (ht : t.data[1]? = o₂) (h : o₁ ≠ o₂) : s ≠ t :=
  fun he => h (by rw [← hs, ← ht, he])

theorem heading_eq_iff (p q : String) :
    ("Project: " ++ q = "Project: " ++ p) ↔ q = p := by
  constructor
  · intro h
    have hd := congrArg String.data h
    simp only [String.data_append] at hd
    exact congrArg String.mk (List.append_cancel_left hd)
  · intro h; rw [h]

theorem h4_eq_iff (p q : String) :
    ("<h4>" ++ q ++ "</h4>" = "<h4>" ++ p ++ "</h4>") ↔ q = p := by
  constructor
  · intro h
    have hd := congrArg String.data h
    simp only [String.data_append, List.append_assoc] at hd
    exact congrArg String.mk (List.append_cancel_right (List.append_cancel_left hd))
  · intro h; rw [h]

/-- Every template's `text_item` line starts with a space character. -/
theorem textItem_head (name d desc : String) :
    ((getTemplate name).textItem d desc).data.head? = some ' ' := by
  unfold getTemplate TEMPLATES
  simp only [List.lookup]
  repeat' split
  all_goals rfl

/-- Every template's `html_item` line starts with `<li>`. -/
theorem htmlItem_second (name d desc : String) :
    ((getTemplate name).htmlItem d desc).data[1]? = some 'l' := by
  unfold getTemplate TEMPLATES
  simp only [List.lookup]
  repeat' split
  all_goals rfl

/-- A `foldl` that appends a block per key builds the concatenation of
the blocks. -/
theorem foldl_append_eq_flatMap {α β : Type} (f : α → List β) :
    ∀ (ks : List α) (init : List β),
      ks.foldl (fun acc p => acc ++ f p) init = init ++ ks.flatMap f
  | [], init => by simp
  | k :: ks, init => by
    simp only [List.foldl_cons, List.flatMap_cons,
      foldl_append_eq_flatMap f ks]
    simp

/-- `format_report`'s line list is the header block followed by one block
per project, in sorted key order. -/
theorem format_report_lines_decomp (logs : List LogEntry) (mode : Option Mode)
    (now : DateTime) (summaries : List (String × List String)) (name : String) :
    format_report_lines logs mode now summaries name =
      textHeaderLines mode now ++
        (sortedProjectKeys logs).flatMap
          (textProjectBlock logs summaries (getTemplate name)) := by
  unfold format_report_lines
  dsimp only
  rw [foldl_append_eq_flatMap]
  simp

/-- `format_report_html`'s part list is the header paragraph followed by one
block per project, in sorted key order. -/
theorem format_report_html_parts_decomp (logs : List LogEntry)
    (mode : Option Mode) (now : DateTime)
    (summaries : List (String × List String)) (name : String) :
    format_report_html_parts logs mode now summaries name =
      htmlHeaderParts mode now ++
        (sortedProjectKeys logs).flatMap
          (htmlProjectBlock logs summaries (getTemplate name)) := by
  unfold format_report_html_parts
  dsimp only
  rw [foldl_append_eq_flatMap]
  simp

theorem sortedProjectKeys_sorted (logs : List LogEntry) :
    List.Sorted strLexLe (sortedProjectKeys logs) :=
  List.sorted_insertionSort _ _

theorem sortedProjectKeys_nodup (logs : List LogEntry) :
    (sortedProjectKeys logs).Nodup :=
  ((List.perm_insertionSort _ _).nodup_iff).mpr (List.nodup_dedup _)

theorem mem_sortedProjectKeys (logs : List LogEntry) (q : String) :
    q ∈ sortedProjectKeys logs ↔ q ∈ logs.map (·.project) := by
  unfold sortedProjectKeys projectKeys
  rw [List.mem_insertionSort, List.mem_dedup]

/-- Exactly one heading line per project block on the text side. -/
theorem count_textProjectBlock (logs : List LogEntry)
    (summaries : List (String × List String)) (name : String) (p q : String) :
    (textProjectBlock logs summaries (getTemplate name) q).count ("Project: " ++ p) =
      if q = p then 1 else 0 := by
  have hdash : dashLine60 ≠ "Project: " ++ p :=
    ne_of_headChar (some '-') (some 'P') rfl rfl (by decide)
  have hempty : ("" : String) ≠ "Project: " ++ p :=
    ne_of_headChar none (some 'P') rfl rfl (by decide)
  have hai : "(AI Summary)" ≠ "Project: " ++ p :=
    ne_of_headChar (some '(') (some 'P') rfl rfl (by decide)
  unfold textProjectBlock
  cases h : summaries.lookup q with
  | none =>
    have hmap : (List.map (fun l =>
        (getTemplate name).textItem ((getTemplate name).dateFormat l.date) l.description)
        (projectGroup logs q)).count ("Project: " ++ p) = 0 := by
      rw [List.count_eq_zero]
      intro hmem
      obtain ⟨e, -, he⟩ := List.mem_map.mp hmem
      have hne : (getTemplate name).textItem ((getTemplate name).dateFormat e.date)
          e.description ≠ "Project: " ++ p :=
        ne_of_headChar (some ' ') (some 'P') (textItem_head name _ _) rfl (by decide)
      exact hne he
    simp [List.count_cons, List.count_append, hdash, hempty, hmap, heading_eq_iff]
  | some slines =>
    have hsum : (slines.map (fun l => "  " ++ l)).count ("Project: " ++ p) = 0 := by
      rw [List.count_eq_zero]
      intro hmem
      obtain ⟨l, -, he⟩ := List.mem_map.mp hmem
      have hne : "  " ++ l ≠ "Project: " ++ p :=
        ne_of_headChar (some ' ') (some 'P') rfl rfl (by decide)
      exact hne he
    simp [List.count_cons, List.count_append, hdash, hempty, hai, hsum, heading_eq_iff]

/-- Exactly one `<h4>` heading per project block on the HTML side. -/
theorem count_htmlProjectBlock (logs : List LogEntry)
    (summaries : List (String × List String)) (name : String) (p q : String) :
    (htmlProjectBlock logs summaries (getTemplate name) q).count ("<h4>" ++ p ++ "</h4>") =
      if q = p then 1 else 0 := by
  have hul : "<ul>" ≠ "<h4>" ++ p ++ "</h4>" :=
    ne_of_secondChar (some 'u') (some 'h') rfl rfl (by decide)
  have hulc : "</ul>" ≠ "<h4>" ++ p ++ "</h4>" :=
    ne_of_secondChar (some '/') (some 'h') rfl rfl (by decide)
  have hai : "<p><em>(AI Summary)</em></p>" ≠ "<h4>" ++ p ++ "</h4>" :=
    ne_of_secondChar (some 'p') (some 'h') rfl rfl (by decide)
  unfold htmlProjectBlock
  cases h : summaries.lookup q with
  | none =>
    have hmap : (List.map (fun l =>
        (getTemplate name).htmlItem ((getTemplate name).dateFormat l.date) l.description)
        (projectGroup logs q)).count ("<h4>" ++ p ++ "</h4>") = 0 := by
      rw [List.count_eq_zero]
      intro hmem
      obtain ⟨e, -, he⟩ := List.mem_map.mp hmem
      have hne : (getTemplate name).htmlItem ((getTemplate name).dateFormat e.date)
          e.description ≠ "<h4>" ++ p ++ "</h4>" :=
        ne_of_secondChar (some 'l') (some 'h') (htmlItem_second name _ _) rfl (by decide)
      exact hne he
    simp [List.count_cons, List.count_append, hul, hulc, hmap, h4_eq_iff]
  | some slines =>
    have hsum : (slines.map (fun l => "<li>" ++ lstripSummary l ++ "</li>")).count
        ("<h4>" ++ p ++ "</h4>") = 0 := by
      rw [List.count_eq_zero]
      intro hmem
      obtain ⟨l, -, he⟩ := List.mem_map.mp hmem
      have hne : "<li>" ++ lstripSummary l ++ "</li>" ≠ "<h4>" ++ p ++ "</h4>" :=
        ne_of_secondChar (some 'l') (some 'h') rfl rfl (by decide)
      exact hne he
    simp [List.count_cons, List.count_append, hul, hulc, hai, hsum, h4_eq_iff]

/-- The text header block contains no project heading. -/
theorem count_textHeader (mode : Option Mode) (now : DateTime) (p : String) :
    (textHeaderLines mode now).count ("Project: " ++ p) = 0 := by
  cases mode with
  | none => rfl
  | some m =>
    have h1 : ∀ a b : String, "Report Period: " ++ a ++ " - " ++ b ≠ "Project: " ++ p :=
      fun a b => ne_of_headChar (some 'R') (some 'P') rfl rfl (by decide)
    have h2 : eqLine60 ≠ "Project: " ++ p :=
      ne_of_headChar (some '=') (some 'P') rfl rfl (by decide)
    have h3 : ("" : String) ≠ "Project: " ++ p :=
      ne_of_headChar none (some 'P') rfl rfl (by decide)
    simp [textHeaderLines, List.count_cons, h1, h2, h3]

/-- The HTML header paragraph contains no `<h4>` heading. -/
theorem count_htmlHeader (mode : Option Mode) (now : DateTime) (p : String) :
    (htmlHeaderParts mode now).count ("<h4>" ++ p ++ "</h4>") = 0 := by
  cases mode with
  | none => rfl
  | some m =>
    have h1 : ∀ a b : String,
        "<p><strong>Report Period:</strong> " ++ a ++ " - " ++ b ++ "</p>" ≠
          "<h4>" ++ p ++ "</h4>" :=
      fun a b => ne_of_secondChar (some 'p') (some 'h') rfl rfl (by decide)
    simp [htmlHeaderParts, List.count_cons, h1]

/-- Counting an element across per-key blocks, when exactly the block of `p`
contains it once and the keys are distinct. -/
theorem count_flatMap_of_nodup (x p : String) :
    ∀ (keys : List String) (f : String → List String), keys.Nodup →
      (∀ q ∈ keys, (f q).count x = if q = p then 1 else 0) →
      (keys.flatMap f).count x = if p ∈ keys then 1 else 0
  | [], f, _, _ => by simp
  | k :: ks, f, hnd, hc => by
    obtain ⟨hk, hnd'⟩ := List.nodup_cons.mp hnd
    have hck := hc k (List.mem_cons_self k ks)
    have ih := count_flatMap_of_nodup x p ks f hnd'
      (fun q hq => hc q (List.mem_cons_of_mem _ hq))
    simp only [List.flatMap_cons, List.count_append, hck, ih]
    by_cases hkp : k = p
    · subst hkp
      simp [hk]
    · by_cases hp : p ∈ ks
      · simp [hkp, hp]
      · simp [hkp, hp, Ne.symm hkp]

/-- The spec's tie-broken order refines the sort key actually used by
`group_by_project` (activity date, descending). -/
theorem byDateCreatedDesc_imp_byDateDesc (a b : LogEntry)
    (h : byDateCreatedDesc a b) : byDateDesc a b := by
  unfold byDateCreatedDesc DateTime.Lt at h
  unfold byDateDesc DateTime.Le
  unfold DateTime.Le at h
  omega

/-- On an input already ordered by (date desc, created desc) within every
pair — as the store's range query returns — the stable per-group sort is the
identity, so the group keeps the creation-time tie-break. -/
theorem projectGroup_stable {logs : List LogEntry}
    (h : List.Pairwise byDateCreatedDesc logs) (p : String) :
    projectGroup logs p = logs.filter (fun l => l.project == p) := by
  unfold projectGroup
  exact List.Sorted.insertionSort_eq
    ((List.Pairwise.filter _ h).imp (fun hab => byDateCreatedDesc_imp_byDateDesc _ _ hab))

/-- Every project group is sorted by activity date, descending. -/
theorem projectGroup_sorted (logs : List LogEntry) (p : String) :
    List.Sorted byDateDesc (projectGroup logs p) :=
  List.sorted_insertionSort _ _

/-- `get_logs` returns entries ordered by date descending with creation-time
ties descending (`ORDER BY date DESC, created_at DESC`). -/
theorem get_logs_pairwise (db : DB) (sB eB : Option DateTime) :
    List.Pairwise byDateCreatedDesc (get_logs db sB eB) := by
  unfold get_logs
  have hH : ∀ a b : Row, rowOrderDesc a b →
      byDateCreatedDesc (rowToEntry a) (rowToEntry b) := by
    intro a b hab
    unfold rowOrderDesc Date3.Lt DateTime.Le at hab
    unfold byDateCreatedDesc rowToEntry Date3.toMidnight DateTime.Lt DateTime.Le
    dsimp only
    omega
  exact List.Pairwise.map rowToEntry hH (List.sorted_insertionSort _ _)

/-- C2 amended: for every entry list, the text and HTML reports consist of
the header block followed by exactly one block per distinct project —
project keys strictly ascending in code-point lexicographic order, each
project heading occurring exactly once — and each group's lines are the
group's entries sorted by activity date descending (stable in input order);
when the input is pairwise ordered by (date desc, created desc), as every
`get_logs` result is, the groups keep the descending creation-time
tie-break. -/
theorem report_grouping_headings_order (logs : List LogEntry)
    (mode : Option Mode) (now : DateTime)
    (summaries : List (String × List String)) (name : String) :
    format_report_lines logs mode now summaries name =
      textHeaderLines mode now ++ (sortedProjectKeys logs).flatMap
        (textProjectBlock logs summaries (getTemplate name))
  ∧ format_report_html_parts logs mode now summaries name =
      htmlHeaderParts mode now ++ (sortedProjectKeys logs).flatMap
        (htmlProjectBlock logs summaries (getTemplate name))
  ∧ List.Sorted strLexLe (sortedProjectKeys logs)
  ∧ (sortedProjectKeys logs).Nodup
  ∧ (∀ q, q ∈ sortedProjectKeys logs ↔ q ∈ logs.map (·.project))
  ∧ (∀ p, (format_report_lines logs mode now summaries name).count
        ("Project: " ++ p) = if p ∈ sortedProjectKeys logs then 1 else 0)
  ∧ (∀ p, (format_report_html_parts logs mode now summaries name).count
        ("<h4>" ++ p ++ "</h4>") = if p ∈ sortedProjectKeys logs then 1 else 0)
  ∧ (∀ p, List.Sorted byDateDesc (projectGroup logs p))
  ∧ (List.Pairwise byDateCreatedDesc logs →
      ∀ p, projectGroup logs p = logs.filter (fun l => l.project == p)
        ∧ List.Pairwise byDateCreatedDesc (projectGroup logs p))
  ∧ (∀ db sB eB, List.Pairwise byDateCreatedDesc (get_logs db sB eB)) := by
  refine ⟨format_report_lines_decomp logs mode now summaries name,
    format_report_html_parts_decomp logs mode now summaries name,
    sortedProjectKeys_sorted logs,
    sortedProjectKeys_nodup logs,
    fun q => mem_sortedProjectKeys logs q,
    ?_, ?_,
    fun p => projectGroup_sorted logs p,
    ?_,
    fun db sB eB => get_logs_pairwise db sB eB⟩
  · intro p
    rw [format_report_lines_decomp, List.count_append, count_textHeader]
    rw [count_flatMap_of_nodup ("Project: " ++ p) p (sortedProjectKeys logs) _
      (sortedProjectKeys_nodup logs)
      (fun q _ => count_textProjectBlock logs summaries name p q)]
    simp
  · intro p
    rw [format_report_html_parts_decomp, List.count_append, count_htmlHeader]
    rw [count_flatMap_of_nodup ("<h4>" ++ p ++ "</h4>") p (sortedProjectKeys logs) _
      (sortedProjectKeys_nodup logs)
      (fun q _ => count_htmlProjectBlock logs summaries name p q)]
    simp
  · intro hpw p
    refine ⟨projectGroup_stable hpw p, ?_⟩
    rw [projectGroup_stable hpw p]
    exact List.Pairwise.filter _ hpw

/-- Witness for `report_grouping_headings_order` on a concrete store-ordered
two-project input. -/
theorem report_grouping_headings_order_witness :
    projectGroup [entryPD "B" 15, entryPD "A" 14] "A" =
      [entryPD "B" 15, entryPD "A" 14].filter (fun l => l.project == "A")
  ∧ List.Pairwise byDateCreatedDesc
      (projectGroup [entryPD "B" 15, entryPD "A" 14] "A")
  ∧ (format_report_lines [entryPD "B" 15, entryPD "A" 14] none
        ⟨2024, 3, 15, 0, 0, 0⟩ [] "classic").count ("Project: " ++ "A") =
      if "A" ∈ sortedProjectKeys [entryPD "B" 15, entryPD "A" 14] then 1 else 0 := by
  have h := report_grouping_headings_order [entryPD "B" 15, entryPD "A" 14]
    none ⟨2024, 3, 15, 0, 0, 0⟩ [] "classic"
  have h9 := h.2.2.2.2.2.2.2.2.1 (by decide) "A"
  exact ⟨h9.1, h9.2, h.2.2.2.2.2.1 "A"⟩

/-- C2 (counterexample): two same-day entries of one project arrive in
ascending creation order; the group keeps that input order, so the rendered
lines are *not* tie-broken by descending creation timestamp as the claim
states for arbitrary entry lists. -/
theorem group_tiebreak_counterexample :
    projectGroup [tieEarlier, tieLater] "P" = [tieEarlier, tieLater]
  ∧ ¬ List.Pairwise byDateCreatedDesc (projectGroup [tieEarlier, tieLater] "P")
  ∧ tieEarlier.date = tieLater.date
  ∧ DateTime.Lt tieEarlier.created_at tieLater.created_at
  ∧ format_report_lines [tieEarlier, tieLater] none ⟨2024, 3, 15, 0, 0, 0⟩
      [] "classic" =
      ["Project: P", dashLine60, "  * 03/15 - first created",
       "  * 03/15 - second created", ""] := by
  decide
